import Mathlib

/-!
Verification development for the command/script execution subsystem of the
`Go-tools` repository (`internal/tools/shell.go`): the safety denylist, timeout
defaulting, output capping, environment handling with sensitive-value
redaction, `get_env` selection, and shell resolution.

Go strings are byte sequences; every string this subsystem manipulates is
ASCII, so we model them as Lean `String` / `List Char` (one `Char` per byte).
Machine `int` fields (`TimeoutMs`, exit codes, durations) are modelled as
`Int`.  Effectful collaborators (the host environment, `filepath.Abs`,
`os.Stat`, `exec.LookPath`, `runtime.GOOS`, and the actual process run) are
supplied as an explicit `Host` record of oracles, and each `Execute` function
returns its result together with the list of spawn requests it issued, so that
"no process is spawned" is an observable statement.
-/

namespace GoTools

/-! ### Character classes used by the compiled deny patterns (RE2 semantics)

`\s` in Go's `regexp` package is the class `[\t\n\f\r ]`; `\b` is a word
boundary with word characters `[0-9A-Za-z_]`. -/

def isReSpace (c : Char) : Bool :=
  c = ' ' || c = '\t' || c = '\n' || c = '\x0c' || c = '\r'

def isWordChar (c : Char) : Bool :=
  ('0' ≤ c && c ≤ '9') || ('a' ≤ c && c ≤ 'z') || ('A' ≤ c && c ≤ 'Z') || c = '_'

/-- The position before the scanned suffix is a `\b` boundary for a pattern
whose first matched character is a word character: there must be no preceding
character, or a non-word one. -/
def boundaryNonWord : Option Char → Bool
  | none => true
  | some c => !isWordChar c

def dropReSpaces (s : List Char) : List Char := s.dropWhile isReSpace

/-- `\s+` begins here: the next character exists and is an RE2 space. -/
def hasSpacePlus (s : List Char) : Bool :=
  match s with
  | [] => false
  | c :: _ => isReSpace c

/-- Generic unanchored scan: try the position matcher `p` at every suffix of
the subject, carrying the character just before the current position (needed
for `\b`). -/
def scanWithPrev (p : Option Char → List Char → Bool) : Option Char → List Char → Bool
  | prev, [] => p prev []
  | prev, c :: rest => p prev (c :: rest) || scanWithPrev p (some c) rest

/-- Matcher for `\bW\b` at a position, for a literal word `W` that starts and
ends with word characters (used by the `mkfs`, `shutdown`, `reboot` rules). -/
def wordBoundedAt (w : List Char) (prev : Option Char) (s : List Char) : Bool :=
  boundaryNonWord prev && w.isPrefixOf s &&
    (match s.drop w.length with
     | [] => true
     | c :: _ => !isWordChar c)

def matchWordBoth (w : List Char) (s : List Char) : Bool :=
  scanWithPrev (wordBoundedAt w) none s

/-- Matcher for `\brm\s+-rf\s+/\s*$` at a position.  Each `\s+` is followed by
a non-space literal and the final `\s*` by end-of-subject, so greedy maximal
munch is equivalent to the regex's choice of split. -/
def rmRfAt (prev : Option Char) (s : List Char) : Bool :=
  boundaryNonWord prev &&
  ("rm".data.isPrefixOf s &&
    (let s1 := s.drop 2
     hasSpacePlus s1 &&
       (let s2 := dropReSpaces s1
        "-rf".data.isPrefixOf s2 &&
          (let s3 := s2.drop 3
           hasSpacePlus s3 &&
             (match dropReSpaces s3 with
              | '/' :: s5 => s5.all isReSpace
              | _ => false)))))

/-- `.*of=/dev/` : RE2 `.` does not match a newline, so this holds iff the
literal occurs later in the subject with no intervening newline. -/
def ddDot : List Char → Bool
  | [] => false
  | c :: rest => "of=/dev/".data.isPrefixOf (c :: rest) || (c ≠ '\n' && ddDot rest)

/-- After the first consumed `\s` character of `\s+.*of=/dev/`: either start
the `.*` part here, or consume one more space character. -/
def ddAfterSpace : List Char → Bool
  | [] => false
  | c :: rest => ddDot (c :: rest) || (isReSpace c && ddAfterSpace rest)

/-- Matcher for `\bdd\s+.*of=/dev/` at a position. -/
def ddAt (prev : Option Char) (s : List Char) : Bool :=
  boundaryNonWord prev &&
  ("dd".data.isPrefixOf s &&
    (match s.drop 2 with
     | [] => false
     | c :: rest => isReSpace c && ddAfterSpace rest))

/-- Matcher for `>\s*/dev/sd[a-z]` at a position (no boundary assertions). -/
def devSdAt (_prev : Option Char) (s : List Char) : Bool :=
  match s with
  | '>' :: rest =>
    let r := dropReSpaces rest
    "/dev/sd".data.isPrefixOf r &&
      (match r.drop 7 with
       | c :: _ => 'a' ≤ c && c ≤ 'z'
       | [] => false)
  | _ => false

/-- The fork-bomb rule `\b:(){ :|:& };:` parses, under RE2 syntax, as the
top-level alternation of `\b:(){ :` (word boundary, colon, empty group, then
the literal three characters brace-space-colon) and the literal `:& };:`.
First branch at a position: `\b` before a colon requires a preceding word
character. -/
def forkBomb1At (prev : Option Char) (s : List Char) : Bool :=
  (match prev with
   | some c => isWordChar c
   | none => false) &&
  ":\x7b :".data.isPrefixOf s

/-- Second alternation branch: the literal `:& };:`. -/
def forkBomb2At (_prev : Option Char) (s : List Char) : Bool :=
  ":& \x7d;:".data.isPrefixOf s

def forkBombAt (prev : Option Char) (s : List Char) : Bool :=
  forkBomb1At prev s || forkBomb2At prev s

def systemctlVerbs : List (List Char) :=
  ["start".data, "stop".data, "disable".data, "enable".data, "mask".data]

/-- `(start|stop|disable|enable|mask)\b` at a position. -/
def verbBounded (s : List Char) : Bool :=
  systemctlVerbs.any fun v =>
    v.isPrefixOf s &&
      (match s.drop v.length with
       | [] => true
       | c :: _ => !isWordChar c)

/-- Matcher for `\bsystemctl\s+(start|stop|disable|enable|mask)\b` at a
position. -/
def systemctlAt (prev : Option Char) (s : List Char) : Bool :=
  boundaryNonWord prev &&
  ("systemctl".data.isPrefixOf s &&
    (let s1 := s.drop 9
     hasSpacePlus s1 && verbBounded (dropReSpaces s1)))

/-- `defaultDenyPatterns` from `shell.go`, in source order: each compiled
pattern becomes a whole-subject Boolean matcher paired with the pattern's
source text (what `re.String()` reports in the error message). -/
def defaultDenyPatterns : List ((List Char → Bool) × String) :=
  [ (fun s => scanWithPrev rmRfAt none s, "\\brm\\s+-rf\\s+/\\s*$"),
    (fun s => matchWordBoth "mkfs".data s, "\\bmkfs\\b"),
    (fun s => scanWithPrev ddAt none s, "\\bdd\\s+.*of=/dev/"),
    (fun s => scanWithPrev devSdAt none s, ">\\s*/dev/sd[a-z]"),
    (fun s => scanWithPrev forkBombAt none s, "\\b:()\x7b :|:& \x7d;:"),
    (fun s => matchWordBoth "shutdown".data s, "\\bshutdown\\b"),
    (fun s => matchWordBoth "reboot".data s, "\\breboot\\b"),
    (fun s => scanWithPrev systemctlAt none s,
      "\\bsystemctl\\s+(start|stop|disable|enable|mask)\\b") ]

def isDeniedAux : List ((List Char → Bool) × String) → List Char → Bool × String
  | [], _ => (false, "")
  | (m, d) :: rest, s => if m s then (true, d) else isDeniedAux rest s

/-- `isDenied` from `shell.go`: first matching pattern wins; on no match the
result is `(false, "")`. -/
def isDenied (fullCmd : String) : Bool × String :=
  isDeniedAux defaultDenyPatterns fullCmd.data

/-! ### Constants and output capping -/

def defaultTimeoutMs : Int := 30000

def maxOutputBytes : Nat := 1 * 1024 * 1024

/-- `capOutput` from `shell.go`: keep at most `maxOutputBytes` bytes and
report whether anything was cut. -/
def capOutput (data : List Char) : List Char × Bool :=
  if data.length > maxOutputBytes then (data.take maxOutputBytes, true)
  else (data, false)

/-! ### Sensitive-key classification and redaction -/

def sensitiveEnvKeys : List String :=
  [ "AWS_SECRET_ACCESS_KEY", "AWS_SESSION_TOKEN", "GITHUB_TOKEN", "GH_TOKEN",
    "OPENAI_API_KEY", "ANTHROPIC_API_KEY", "DATABASE_URL", "DB_PASSWORD",
    "SECRET_KEY", "PRIVATE_KEY", "API_KEY", "API_SECRET", "PASSWORD", "TOKEN",
    "STRIPE_SECRET_KEY", "SENDGRID_API_KEY" ]

def sensitivePatterns : List String :=
  [ "SECRET", "PASSWORD", "PASSWD", "TOKEN",
    "API_KEY", "APIKEY", "PRIVATE_KEY", "CREDENTIAL", "AUTH" ]

/-- `strings.Contains` on ASCII text. -/
def strContains (hay needle : List Char) : Bool :=
  match hay with
  | [] => needle.isEmpty
  | c :: rest => needle.isPrefixOf (c :: rest) || strContains rest needle

/-- `strings.ToUpper` restricted to ASCII (all keys this subsystem handles
are ASCII). -/
def goToUpper (s : String) : String := ⟨s.data.map Char.toUpper⟩

/-- `isSensitiveEnvKey` from `shell.go`: exact-name set union substring
heuristics, both over the upper-cased key. -/
def isSensitiveEnvKey (key : String) : Bool :=
  let upper := goToUpper key
  sensitiveEnvKeys.contains upper ||
    sensitivePatterns.any fun p => strContains upper.data p.data

/-- `redactValue` from `shell.go`: `val[:2] + "*"×(len-4) + val[len-2:]` for
length above four, else the fixed `"****"`. -/
def redactValue (val : String) : String :=
  if val.length ≤ 4 then "****"
  else ⟨val.data.take 2 ++ List.replicate (val.length - 4) '*'
          ++ val.data.drop (val.length - 2)⟩

/-! ### get_env

The process environment is modelled as an association list in `os.Environ`
order (real process environments carry each key once; `os.LookupEnv` is
first-occurrence lookup).  The Go code's all-variables branch splits each
`k=v` string; keys never contain `=`, so the pair model is exact. -/

structure GetEnvInput where
  keys : List String
  includeSensitive : Bool

structure EnvEntry where
  key : String
  value : String
  redacted : Bool
deriving DecidableEq

/-- `GetEnvOutput` (`vars` is the source's `Variables` field). -/
structure GetEnvOutput where
  vars : List EnvEntry
  count : Nat
deriving DecidableEq

/-- Build one returned entry: redact when the key is sensitive and
`include_sensitive` is false. -/
def mkEnvEntry (key val : String) (includeSensitive : Bool) : EnvEntry :=
  if isSensitiveEnvKey key && !includeSensitive then
    ⟨key, redactValue val, true⟩
  else
    ⟨key, val, false⟩

/-- `GetEnvTool.Execute` from `shell.go` over an explicit environment table:
a non-empty `keys` list selects those keys (absent ones skipped); an empty
list returns every variable. -/
def GetEnvTool.Execute (environ : List (String × String)) (inp : GetEnvInput) :
    GetEnvOutput :=
  let entries :=
    if inp.keys.isEmpty then
      environ.map fun p => mkEnvEntry p.1 p.2 inp.includeSensitive
    else
      inp.keys.filterMap fun k =>
        (List.lookup k environ).map fun v => mkEnvEntry k v inp.includeSensitive
  ⟨entries, entries.length⟩

/-! ### Shell resolution -/

/-- One Go `switch` case of `resolveShell`: `some` when the requested (already
lower-cased) interpreter resolves, `none` when control falls through to the
platform default below the switch. -/
def resolveShellCase (look : String → Option String) (r : String) :
    Option (String × String) :=
  if r = "bash" then (look "bash").map fun p => (p, "-c")
  else if r = "zsh" then (look "zsh").map fun p => (p, "-c")
  else if r = "sh" then (look "sh").map fun p => (p, "-c")
  else if r = "pwsh" || r = "powershell" then
    match look "pwsh" with
    | some p => some (p, "-Command")
    | none => (look "powershell").map fun p => (p, "-Command")
  else if r = "fish" then (look "fish").map fun p => (p, "-c")
  else none

/-- The platform-default section of `resolveShell`. -/
def resolveShellDefault (goos : String) (look : String → Option String) :
    String × String :=
  if goos = "windows" then
    match look "pwsh" with
    | some p => (p, "-Command")
    | none =>
      match look "powershell" with
      | some p => (p, "-Command")
      | none => ("cmd", "/C")
  else
    match look "bash" with
    | some p => (p, "-c")
    | none =>
      match look "zsh" with
      | some p => (p, "-c")
      | none =>
        match look "sh" with
        | some p => (p, "-c")
        | none => ("/bin/sh", "-c")

/-- `strings.ToLower` restricted to ASCII (shell names are ASCII). -/
def goToLower (s : String) : String := ⟨s.data.map Char.toLower⟩

/-- `resolveShell` from `shell.go`, with `exec.LookPath` and `runtime.GOOS`
passed as oracles. -/
def resolveShell (goos : String) (look : String → Option String)
    (requested : String) : String × String :=
  match resolveShellCase look (goToLower requested) with
  | some res => res
  | none => resolveShellDefault goos look

/-! ### Process execution -/

inductive RunErr where
  | ok : RunErr
  | exitError (code : Int) : RunErr
  | otherError : RunErr
deriving DecidableEq

/-- What the operating system reports for one spawned process: whether the
context deadline had fired by the time `Run` returned, how `cmd.Run` ended,
the bytes captured on each stream, and the measured duration. -/
structure ProcOutcome where
  deadlineExceeded : Bool
  runErr : RunErr
  stdoutData : List Char
  stderrData : List Char
  durationMs : Int
deriving DecidableEq

/-- One spawn request as configured by `Execute` before `cmd.Run`:
`dir = none` and `env = none` mean the corresponding `exec.Cmd` field was left
unset (inherit caller's working directory / environment). -/
structure SpawnSpec where
  exe : String
  args : List String
  dir : Option String
  env : Option (List (String × String))
  timeoutMs : Int
deriving DecidableEq

/-- The effectful collaborators of the execution subsystem. -/
structure Host where
  environ : List (String × String)
  absPath : String → Option String
  isDir : String → Bool
  run : SpawnSpec → ProcOutcome
  goos : String
  look : String → Option String

inductive ExecError where
  | validationError (msg : String) : ExecError
  | policyViolation (pattern : String) : ExecError
  | scriptPolicyViolation (pattern : String) (line : String) : ExecError
  | resourceError (cwd : String) : ExecError
  | spawnError : ExecError
deriving DecidableEq

structure RunCommandInput where
  cmd : String
  args : List String
  cwd : String
  envOverrides : List (String × String)
  timeoutMs : Int

structure RunCommandOutput where
  exitCode : Int
  stdout : List Char
  stderr : List Char
  truncated : Bool
  timedOut : Bool
  durationMs : Int
deriving DecidableEq

/-- The joined command line `in.Cmd + " " + strings.Join(in.Args, " ")`. -/
def fullCmdOf (inp : RunCommandInput) : String :=
  inp.cmd ++ " " ++ String.intercalate " " inp.args

/-- The working-directory block shared by both tools: empty `cwd` leaves the
field unset; otherwise `filepath.Abs` must succeed and the result must be an
existing directory. -/
def cwdResolve (h : Host) (cwd : String) : Except ExecError (Option String) :=
  if cwd = "" then Except.ok none
  else
    match h.absPath cwd with
    | none => Except.error (ExecError.resourceError cwd)
    | some abs =>
      if h.isDir abs then Except.ok (some abs)
      else Except.error (ExecError.resourceError cwd)

/-- The environment block shared by both tools: overrides, when present, are
appended after the caller's full environment (Go map iteration order is
unspecified; override keys are unique, so the appended segment is modelled as
the association list of the map). -/
def childEnvOf (h : Host) (overrides : List (String × String)) :
    Option (List (String × String)) :=
  if overrides.isEmpty then none else some (h.environ ++ overrides)

/-- Result assembly shared by both tools: timeout check first, then the
`cmd.Run` error, then per-stream capping with the OR of the two flags. -/
def assembleOutput (res : ProcOutcome) : Except ExecError RunCommandOutput :=
  let so := capOutput res.stdoutData
  let se := capOutput res.stderrData
  if res.deadlineExceeded then
    Except.ok ⟨-1, so.1, se.1, so.2 || se.2, true, res.durationMs⟩
  else
    match res.runErr with
    | RunErr.ok => Except.ok ⟨0, so.1, se.1, so.2 || se.2, false, res.durationMs⟩
    | RunErr.exitError c =>
      Except.ok ⟨c, so.1, se.1, so.2 || se.2, false, res.durationMs⟩
    | RunErr.otherError => Except.error ExecError.spawnError

/-- `RunCommandTool.Execute` from `shell.go`, as a function from the host
oracles and the decoded input to the call result paired with the list of
spawn requests issued during the call. -/
def RunCommandTool.Execute (h : Host) (inp : RunCommandInput) :
    Except ExecError RunCommandOutput × List SpawnSpec :=
  if inp.cmd = "" then (Except.error (ExecError.validationError "cmd required"), [])
  else
    let dres := isDenied (fullCmdOf inp)
    if dres.1 then (Except.error (ExecError.policyViolation dres.2), [])
    else
      let timeoutMs := if inp.timeoutMs ≤ 0 then defaultTimeoutMs else inp.timeoutMs
      match cwdResolve h inp.cwd with
      | Except.error e => (Except.error e, [])
      | Except.ok dir =>
        let spec : SpawnSpec :=
          ⟨inp.cmd, inp.args, dir, childEnvOf h inp.envOverrides, timeoutMs⟩
        (assembleOutput (h.run spec), [spec])

/-! ### run_script -/

structure RunScriptInput where
  script : String
  shell : String
  cwd : String
  envOverrides : List (String × String)
  timeoutMs : Int

structure RunScriptOutput where
  exitCode : Int
  stdout : List Char
  stderr : List Char
  truncated : Bool
  timedOut : Bool
  durationMs : Int
  shellUsed : String
deriving DecidableEq

/-- `strings.TrimSpace` restricted to ASCII white space
(`[\t\n\v\f\r ]`; the scripts this subsystem handles are ASCII). -/
def isGoSpace (c : Char) : Bool :=
  c = ' ' || c = '\t' || c = '\n' || c = '\x0b' || c = '\x0c' || c = '\r'

def goTrimSpaceL (l : List Char) : List Char :=
  ((l.dropWhile isGoSpace).reverse.dropWhile isGoSpace).reverse

def goTrimSpace (s : String) : String := ⟨goTrimSpaceL s.data⟩

/-- `strings.Split(s, "\n")`: the newline-separated fields of `s` (`[""]` for
the empty string, with a trailing empty field after a final newline). -/
def splitLines : List Char → List (List Char)
  | [] => [[]]
  | c :: rest =>
    match splitLines rest with
    | [] => [[]]
    | l :: ls => if c = '\n' then [] :: l :: ls else (c :: l) :: ls

/-- `strings.HasPrefix(line, "#")`. -/
def isCommentLine (t : List Char) : Bool :=
  match t with
  | '#' :: _ => true
  | _ => false

/-- One iteration of the script-safety loop: `some (pattern, trimmedLine)`
when this line is blocked, `none` when it is blank, a comment, or clean. -/
def scriptCheckLine (line : List Char) : Option (String × String) :=
  let t := goTrimSpaceL line
  if t.isEmpty || isCommentLine t then none
  else
    let d := isDeniedAux defaultDenyPatterns t
    if d.1 then some (d.2, ⟨t⟩) else none

/-- The script-safety loop of `RunScriptTool.Execute`: the first blocked line
(with its matched pattern), if any. -/
def scriptDeniedLine (script : String) : Option (String × String) :=
  (splitLines script.data).findSome? scriptCheckLine

/-- `RunScriptTool.Execute` from `shell.go`, with the same host oracles and
spawn trace as `RunCommandTool.Execute`. -/
def RunScriptTool.Execute (h : Host) (inp : RunScriptInput) :
    Except ExecError RunScriptOutput × List SpawnSpec :=
  if inp.script = "" then
    (Except.error (ExecError.validationError "script required"), [])
  else
    match scriptDeniedLine inp.script with
    | some pl => (Except.error (ExecError.scriptPolicyViolation pl.1 pl.2), [])
    | none =>
      let sh := resolveShell h.goos h.look inp.shell
      let timeoutMs := if inp.timeoutMs ≤ 0 then defaultTimeoutMs else inp.timeoutMs
      match cwdResolve h inp.cwd with
      | Except.error e => (Except.error e, [])
      | Except.ok dir =>
        let spec : SpawnSpec :=
          ⟨sh.1, [sh.2, inp.script], dir, childEnvOf h inp.envOverrides, timeoutMs⟩
        match assembleOutput (h.run spec) with
        | Except.error e => (Except.error e, [spec])
        | Except.ok o =>
          (Except.ok ⟨o.exitCode, o.stdout, o.stderr, o.truncated, o.timedOut,
             o.durationMs, sh.1⟩, [spec])

/-- What a spawned child actually observes for a key: `execve` (through Go's
`os/exec`, which de-duplicates keeping the last occurrence) resolves a key to
its last binding in the environment list. -/
def observedValue (env : List (String × String)) (k : String) : Option String :=
  List.lookup k env.reverse

/-- The environment the child effectively runs with: an unset `env` field
means the caller's environment is inherited unmodified. -/
def effectiveChildEnv (h : Host) (s : SpawnSpec) : List (String × String) :=
  s.env.getD h.environ

/-- The effective deadline: the `timeoutMs <= 0` default of both tools. -/
def effTimeout (t : Int) : Int := if t ≤ 0 then defaultTimeoutMs else t

/-- The spawn request `RunCommandTool.Execute` issues once all guards pass. -/
def commandSpec (h : Host) (inp : RunCommandInput) (dir : Option String) : SpawnSpec :=
  ⟨inp.cmd, inp.args, dir, childEnvOf h inp.envOverrides, effTimeout inp.timeoutMs⟩

/-- The spawn request `RunScriptTool.Execute` issues once all guards pass. -/
def scriptSpec (h : Host) (inp : RunScriptInput) (dir : Option String) : SpawnSpec :=
  ⟨(resolveShell h.goos h.look inp.shell).1,
    [(resolveShell h.goos h.look inp.shell).2, inp.script], dir,
    childEnvOf h inp.envOverrides, effTimeout inp.timeoutMs⟩

/-- A concrete process outcome used by the closed instantiations below:
the child exits with status 7 before the deadline. -/
def outA : ProcOutcome := ⟨false, RunErr.exitError 7, "o".data, "e".data, 5⟩

/-- A concrete host used by the closed instantiations below. -/
def hostA : Host :=
  { environ := [("PATH", "/bin"), ("X", "0")],
    absPath := fun s => some ("/abs/" ++ s),
    isDir := fun _ => true,
    run := fun _ => outA,
    goos := "linux",
    look := fun n => if n = "bash" then some "/usr/bin/bash" else none }

/-! ### Helper lemmas: pattern scanning -/

lemma runCommand_trace (h : Host) (inp : RunCommandInput) :
    ((RunCommandTool.Execute h inp).2 = [] ∧
      ∃ e, (RunCommandTool.Execute h inp).1 = Except.error e) ∨
    ∃ dir, cwdResolve h inp.cwd = Except.ok dir ∧
      RunCommandTool.Execute h inp
        = (assembleOutput (h.run (commandSpec h inp dir)), [commandSpec h inp dir]) := by
  by_cases hc : inp.cmd = ""
  · exact Or.inl ⟨by simp [RunCommandTool.Execute, hc],
      ExecError.validationError "cmd required", by simp [RunCommandTool.Execute, hc]⟩
  · by_cases hd : (isDenied (fullCmdOf inp)).1 = true
    · exact Or.inl ⟨by simp [RunCommandTool.Execute, hc, hd],
        ExecError.policyViolation (isDenied (fullCmdOf inp)).2,
        by simp [RunCommandTool.Execute, hc, hd]⟩
    · cases hcwd : cwdResolve h inp.cwd with
      | error e =>
        exact Or.inl ⟨by simp [RunCommandTool.Execute, hc, hd, hcwd], e,
          by simp [RunCommandTool.Execute, hc, hd, hcwd]⟩
      | ok dir =>
        exact Or.inr ⟨dir, rfl,
          by simp [RunCommandTool.Execute, hc, hd, hcwd, commandSpec, effTimeout]⟩

lemma runScript_trace (h : Host) (inp : RunScriptInput) :
    ((RunScriptTool.Execute h inp).2 = [] ∧
      ∃ e, (RunScriptTool.Execute h inp).1 = Except.error e) ∨
    ∃ dir, cwdResolve h inp.cwd = Except.ok dir ∧
      scriptDeniedLine inp.script = none ∧
      (RunScriptTool.Execute h inp).2 = [scriptSpec h inp dir] ∧
      (∀ e, assembleOutput (h.run (scriptSpec h inp dir)) = Except.error e →
        (RunScriptTool.Execute h inp).1 = Except.error e) ∧
      (∀ o, assembleOutput (h.run (scriptSpec h inp dir)) = Except.ok o →
        (RunScriptTool.Execute h inp).1
          = Except.ok ⟨o.exitCode, o.stdout, o.stderr, o.truncated, o.timedOut,
              o.durationMs, (resolveShell h.goos h.look inp.shell).1⟩) := by
  by_cases hs : inp.script = ""
  · exact Or.inl ⟨by simp [RunScriptTool.Execute, hs],
      ExecError.validationError "script required", by simp [RunScriptTool.Execute, hs]⟩
  · cases hdl : scriptDeniedLine inp.script with
    | some pl =>
      exact Or.inl ⟨by simp [RunScriptTool.Execute, hs, hdl],
        ExecError.scriptPolicyViolation pl.1 pl.2, by simp [RunScriptTool.Execute, hs, hdl]⟩
    | none =>
      cases hcwd : cwdResolve h inp.cwd with
      | error e =>
        exact Or.inl ⟨by simp [RunScriptTool.Execute, hs, hdl, hcwd], e,
          by simp [RunScriptTool.Execute, hs, hdl, hcwd]⟩
      | ok dir =>
        have hx : RunScriptTool.Execute h inp
            = (match assembleOutput (h.run (scriptSpec h inp dir)) with
               | Except.error e => (Except.error e, [scriptSpec h inp dir])
               | Except.ok o =>
                 (Except.ok ⟨o.exitCode, o.stdout, o.stderr, o.truncated, o.timedOut,
                    o.durationMs, (resolveShell h.goos h.look inp.shell).1⟩,
                  [scriptSpec h inp dir])) := by
          simp [RunScriptTool.Execute, hs, hdl, hcwd, scriptSpec, effTimeout]
        refine Or.inr ⟨dir, rfl, rfl, ?_, ?_, ?_⟩
        · rw [hx]
          cases hass : assembleOutput (h.run (scriptSpec h inp dir)) <;> simp
        · intro e he
          rw [hx, he]
        · intro o ho
          rw [hx, ho]

/-! ### Helper lemmas: result assembly -/

lemma assembleOutput_timedOut {res : ProcOutcome} {r : RunCommandOutput}
    (hE : assembleOutput res = Except.ok r) (ht : r.timedOut = true) :
    r.exitCode = -1 := by
  unfold assembleOutput at hE
  split at hE
  · cases hE; rfl
  · split at hE
    · cases hE; cases ht
    · cases hE; cases ht
    · cases hE

lemma assembleOutput_exit {res : ProcOutcome} {c : Int}
    (hd : res.deadlineExceeded = false) (he : res.runErr = RunErr.exitError c) :
    ∃ r, assembleOutput res = Except.ok r ∧ r.exitCode = c ∧ r.timedOut = false := by
  unfold assembleOutput
  rw [hd, he]
  exact ⟨_, rfl, rfl, rfl⟩

lemma assembleOutput_fields {res : ProcOutcome} {r : RunCommandOutput}
    (hE : assembleOutput res = Except.ok r) :
    r.stdout = (capOutput res.stdoutData).1 ∧
    r.stderr = (capOutput res.stderrData).1 ∧
    r.truncated = ((capOutput res.stdoutData).2 || (capOutput res.stderrData).2) := by
  unfold assembleOutput at hE
  split at hE
  · cases hE; exact ⟨rfl, rfl, rfl⟩
  · split at hE
    · cases hE; exact ⟨rfl, rfl, rfl⟩
    · cases hE; exact ⟨rfl, rfl, rfl⟩
    · cases hE

/-! ### Helper lemmas: association-list lookup, redaction structure, get_env, script lines -/

lemma lookup_append (k : String) (l₁ l₂ : List (String × String)) :
    List.lookup k (l₁ ++ l₂)
      = (match List.lookup k l₁ with
         | some v => some v
         | none => List.lookup k l₂) := by
  induction l₁ with
  | nil => simp [List.lookup]
  | cons a t ih =>
    obtain ⟨a1, a2⟩ := a
    by_cases hk : k = a1
    · simp [List.lookup, hk]
    · have : (k == a1) = false := by simp [hk]
      simp [List.lookup, this, ih]

lemma lookup_of_mem_nodup {l : List (String × String)} {k : String} {v : String}
    (hnd : (l.map Prod.fst).Nodup) (hm : (k, v) ∈ l) :
    List.lookup k l = some v := by
  induction l with
  | nil => cases hm
  | cons a t ih =>
    obtain ⟨a1, a2⟩ := a
    rcases List.mem_cons.mp hm with he | ht
    · cases he
      simp [List.lookup]
    · have hk : k ≠ a1 := by
        intro hkeq
        subst hkeq
        have : k ∈ t.map Prod.fst := List.mem_map_of_mem Prod.fst ht
        exact (List.nodup_cons.mp hnd).1 this
      have hbeq : (k == a1) = false := by simp [hk]
      simp only [List.lookup, hbeq]
      exact ih (List.nodup_cons.mp hnd).2 ht

lemma lookup_eq_none_of_forall {l : List (String × String)} {k : String}
    (h : ∀ v, (k, v) ∉ l) : List.lookup k l = none := by
  induction l with
  | nil => rfl
  | cons a t ih =>
    obtain ⟨a1, a2⟩ := a
    have hk : k ≠ a1 := by
      intro hkeq
      subst hkeq
      exact h a2 (List.mem_cons_self _ _)
    have hbeq : (k == a1) = false := by simp [hk]
    simp only [List.lookup, hbeq]
    exact ih fun v hv => h v (List.mem_cons_of_mem _ hv)

lemma observed_append_mem {env ov : List (String × String)} {k v : String}
    (hnd : (ov.map Prod.fst).Nodup) (hm : (k, v) ∈ ov) :
    observedValue (env ++ ov) k = some v := by
  unfold observedValue
  rw [List.reverse_append, lookup_append]
  have h1 : List.lookup k ov.reverse = some v := by
    apply lookup_of_mem_nodup
    · rw [List.map_reverse]
      exact List.nodup_reverse.mpr hnd
    · exact List.mem_reverse.mpr hm
  rw [h1]

lemma observed_append_not_mem {env ov : List (String × String)} {k : String}
    (h : ∀ v, (k, v) ∉ ov) :
    observedValue (env ++ ov) k = observedValue env k := by
  unfold observedValue
  rw [List.reverse_append, lookup_append]
  have h1 : List.lookup k ov.reverse = none :=
    lookup_eq_none_of_forall fun v hv => h v (List.mem_reverse.mp hv)
  rw [h1]

lemma redact_gt_data {v : String} (hv : v.length > 4) :
    (redactValue v).data
      = v.data.take 2 ++ List.replicate (v.length - 4) '*'
          ++ v.data.drop (v.length - 2) := by
  unfold redactValue
  rw [if_neg (by omega)]

lemma data_length (s : String) : s.data.length = s.length := rfl

lemma redact_gt_length {v : String} (hv : v.length > 4) :
    (redactValue v).length = v.length := by
  have h := redact_gt_data hv
  have h2 : (redactValue v).data.length = v.data.length := by
    rw [h]
    simp [List.length_append, List.length_take, List.length_drop, data_length]
    omega
  rw [data_length, data_length] at h2
  exact h2

lemma redact_take2 {v : String} (hv : v.length > 4) :
    (redactValue v).data.take 2 = v.data.take 2 := by
  rw [redact_gt_data hv, List.append_assoc]
  apply List.take_left'
  rw [List.length_take, data_length]
  omega

lemma redact_drop {v : String} (hv : v.length > 4) :
    (redactValue v).data.drop (v.length - 2) = v.data.drop (v.length - 2) := by
  rw [redact_gt_data hv]
  apply List.drop_left'
  rw [List.length_append, List.length_take, List.length_replicate, data_length]
  omega

lemma redact_mid {v : String} (hv : v.length > 4) :
    ((redactValue v).data.drop 2).take (v.length - 4)
      = List.replicate (v.length - 4) '*' := by
  rw [redact_gt_data hv, List.append_assoc]
  rw [List.drop_left' (by rw [List.length_take, data_length]; omega)]
  apply List.take_left'
  rw [List.length_replicate]

lemma redact_ne_of_mid {v : String} (hv : v.length > 4)
    (h : ∃ c ∈ (v.data.drop 2).take (v.length - 4), c ≠ '*') :
    redactValue v ≠ v := by
  intro heq
  obtain ⟨c, hc, hne⟩ := h
  have h2 : ((redactValue v).data.drop 2).take (v.length - 4)
      = (v.data.drop 2).take (v.length - 4) := by rw [heq]
  rw [redact_mid hv] at h2
  rw [← h2] at hc
  exact hne (List.eq_of_mem_replicate hc)

lemma mkEnvEntry_key (k v : String) (incl : Bool) : (mkEnvEntry k v incl).key = k := by
  unfold mkEnvEntry
  split <;> rfl

lemma getEnv_keys_map (environ : List (String × String)) (keys : List String) (incl : Bool) :
    (keys.filterMap fun k =>
        (List.lookup k environ).map fun v => mkEnvEntry k v incl).map (fun e => e.key)
      = keys.filter fun k => (List.lookup k environ).isSome := by
  induction keys with
  | nil => rfl
  | cons a t ih =>
    cases hl : List.lookup a environ with
    | none => simp [List.filterMap_cons, List.filter_cons, hl, ih]
    | some v => simp [List.filterMap_cons, List.filter_cons, hl, ih, mkEnvEntry_key]

lemma scriptCheckLine_none_iff (line : List Char) :
    scriptCheckLine line = none ↔
      (goTrimSpaceL line ≠ [] → isCommentLine (goTrimSpaceL line) = false →
        (isDeniedAux defaultDenyPatterns (goTrimSpaceL line)).1 = false) := by
  by_cases he : goTrimSpaceL line = []
  · simp [scriptCheckLine, he]
  · by_cases hh : isCommentLine (goTrimSpaceL line) = true
    · simp [scriptCheckLine, he, hh]
    · by_cases hd : (isDeniedAux defaultDenyPatterns (goTrimSpaceL line)).1 = true
      · simp [scriptCheckLine, he, hh, hd]
      · simp [scriptCheckLine, he, hh, hd]

lemma scriptCheckLine_some {line : List Char} {p l : String}
    (h : scriptCheckLine line = some (p, l)) :
    goTrimSpaceL line = l.data ∧ isDenied l = (true, p) := by
  by_cases he : goTrimSpaceL line = []
  · simp [scriptCheckLine, he] at h
  · by_cases hh : isCommentLine (goTrimSpaceL line) = true
    · simp [scriptCheckLine, he, hh] at h
    · by_cases hd : (isDeniedAux defaultDenyPatterns (goTrimSpaceL line)).1 = true
      · simp only [scriptCheckLine, he, hh, hd] at h
        simp at h
        obtain ⟨-, hp2, hl2⟩ := h
        refine ⟨by rw [← hl2], ?_⟩
        rw [← hl2]
        rw [Prod.ext_iff]
        exact ⟨hd, hp2⟩
      · simp [scriptCheckLine, he, hh, hd] at h

lemma findSome?_mem {α β : Type} {f : α → Option β} {l : List α} {b : β}
    (h : l.findSome? f = some b) : ∃ a ∈ l, f a = some b := by
  induction l with
  | nil => simp [List.findSome?] at h
  | cons a t ih =>
    rw [List.findSome?_cons] at h
    cases hf : f a with
    | some v =>
      rw [hf] at h
      simp at h
      exact ⟨a, List.mem_cons_self _ _, by rw [hf, h]⟩
    | none =>
      rw [hf] at h
      simp at h
      obtain ⟨x, hx, hfx⟩ := ih h
      exact ⟨x, List.mem_cons_of_mem _ hx, hfx⟩

/-! ## Claim theorems -/

/-- C1: for every run_command request with a non-empty executable name whose
joined command line matches a configured deny pattern, `Execute` returns a
policy-violation failure naming the matched rule, returns no execution
result, and issues no spawn request — for every host oracle, so before any
working-directory or environment handling could have an effect. -/
theorem claim1_run_command_policy_rejection (h : Host) (inp : RunCommandInput)
    (hcmd : inp.cmd ≠ "") (hden : (isDenied (fullCmdOf inp)).1 = true) :
    RunCommandTool.Execute h inp
      = (Except.error (ExecError.policyViolation (isDenied (fullCmdOf inp)).2), []) := by
  simp [RunCommandTool.Execute, hcmd, hden]

theorem claim1_witness :
    RunCommandTool.Execute hostA ⟨"shutdown", ["-h", "now"], "relative", [("A", "1")], 99⟩
      = (Except.error (ExecError.policyViolation "\\bshutdown\\b"), []) := by
  have h := claim1_run_command_policy_rejection hostA
    ⟨"shutdown", ["-h", "now"], "relative", [("A", "1")], 99⟩ (by decide) (by decide)
  have hp : (isDenied (fullCmdOf
      ⟨"shutdown", ["-h", "now"], "relative", [("A", "1")], 99⟩)).2 = "\\bshutdown\\b" := by
    decide
  rw [hp] at h
  exact h

/-- C3: for both run_command and run_script, every spawn request carries the
requested deadline, defaulted to 30000 ms when absent (0) or non-positive; in
every returned result `timedOut = true` forces the sentinel exit code `-1`;
and for each of the two tools, when the process exits before the deadline
with an exit error, the call returns an ordinary ok result (not a call
failure) carrying the real exit status. -/
theorem claim3_timeout_default_and_sentinel (h : Host) (inpC : RunCommandInput)
    (inpS : RunScriptInput) :
    (∀ r tr, RunCommandTool.Execute h inpC = (Except.ok r, tr) →
      (r.timedOut = true → r.exitCode = -1) ∧
      ∀ s ∈ tr, s.timeoutMs = if inpC.timeoutMs ≤ 0 then 30000 else inpC.timeoutMs) ∧
    (∀ r tr, RunScriptTool.Execute h inpS = (Except.ok r, tr) →
      (r.timedOut = true → r.exitCode = -1) ∧
      ∀ s ∈ tr, s.timeoutMs = if inpS.timeoutMs ≤ 0 then 30000 else inpS.timeoutMs) ∧
    (∀ out (c : Int) dir,
      (∀ s, h.run s = out) → out.deadlineExceeded = false →
      out.runErr = RunErr.exitError c →
      inpC.cmd ≠ "" → (isDenied (fullCmdOf inpC)).1 = false →
      cwdResolve h inpC.cwd = Except.ok dir →
      (RunCommandTool.Execute h inpC).2 = [commandSpec h inpC dir] ∧
      (RunCommandTool.Execute h inpC).1.isOk = true ∧
      ∀ r, (RunCommandTool.Execute h inpC).1 = Except.ok r →
        r.exitCode = c ∧ r.timedOut = false) ∧
    (∀ out (c : Int) dir,
      (∀ s, h.run s = out) → out.deadlineExceeded = false →
      out.runErr = RunErr.exitError c →
      inpS.script ≠ "" → scriptDeniedLine inpS.script = none →
      cwdResolve h inpS.cwd = Except.ok dir →
      (RunScriptTool.Execute h inpS).2 = [scriptSpec h inpS dir] ∧
      (RunScriptTool.Execute h inpS).1.isOk = true ∧
      ∀ r, (RunScriptTool.Execute h inpS).1 = Except.ok r →
        r.exitCode = c ∧ r.timedOut = false) := by
  refine ⟨?_, ?_, ?_, ?_⟩
  · intro r tr hE
    rcases runCommand_trace h inpC with ⟨htr, e, he⟩ | ⟨dir, hcwd, heq⟩
    · rw [hE] at he
      simp at he
    · rw [heq] at hE
      rw [Prod.mk.injEq] at hE
      obtain ⟨hres, htr⟩ := hE
      refine ⟨fun ht => assembleOutput_timedOut hres ht, ?_⟩
      intro s hs
      rw [← htr] at hs
      rcases List.mem_singleton.mp hs with rfl
      simp [commandSpec, effTimeout, defaultTimeoutMs]
  · intro r tr hE
    rcases runScript_trace h inpS with ⟨htr, e, he⟩ | ⟨dir, hcwd, hdl, htr, herr, hok⟩
    · rw [hE] at he
      simp at he
    · have h1 : (RunScriptTool.Execute h inpS).1 = Except.ok r := by rw [hE]
      have h2 : tr = [scriptSpec h inpS dir] := by
        rw [hE] at htr
        exact htr
      cases hass : assembleOutput (h.run (scriptSpec h inpS dir)) with
      | error e =>
        rw [herr e hass] at h1
        simp at h1
      | ok o =>
        rw [hok o hass] at h1
        injection h1 with h3
        refine ⟨fun ht => ?_, ?_⟩
        · rw [← h3] at ht ⊢
          simpa using assembleOutput_timedOut hass (by simpa using ht)
        · intro s hs
          rw [h2] at hs
          rcases List.mem_singleton.mp hs with rfl
          simp [scriptSpec, effTimeout, defaultTimeoutMs]
  · intro out c dir hrun hdead hexit hcmd hden hcwd
    have hx : RunCommandTool.Execute h inpC
        = (assembleOutput (h.run (commandSpec h inpC dir)), [commandSpec h inpC dir]) := by
      simp [RunCommandTool.Execute, hcmd, hden, hcwd, commandSpec, effTimeout]
    obtain ⟨r0, har, hc0, ht0⟩ := assembleOutput_exit hdead hexit
    refine ⟨by rw [hx], ?_, ?_⟩
    · rw [hx]
      show (assembleOutput (h.run (commandSpec h inpC dir))).isOk = true
      rw [hrun, har]
      rfl
    · intro r hE
      rw [hx] at hE
      simp only at hE
      rw [hrun, har] at hE
      injection hE with h4
      rw [← h4]
      exact ⟨hc0, ht0⟩
  · intro out c dir hrun hdead hexit hs hdl hcwd
    have hx : RunScriptTool.Execute h inpS
        = (match assembleOutput (h.run (scriptSpec h inpS dir)) with
           | Except.error e => (Except.error e, [scriptSpec h inpS dir])
           | Except.ok o =>
             (Except.ok ⟨o.exitCode, o.stdout, o.stderr, o.truncated, o.timedOut,
                o.durationMs, (resolveShell h.goos h.look inpS.shell).1⟩,
              [scriptSpec h inpS dir])) := by
      simp [RunScriptTool.Execute, hs, hdl, hcwd, scriptSpec, effTimeout]
    obtain ⟨r0, har, hc0, ht0⟩ := assembleOutput_exit hdead hexit
    rw [hrun (scriptSpec h inpS dir), har] at hx
    refine ⟨by rw [hx], by rw [hx]; rfl, ?_⟩
    intro r hE
    rw [hx] at hE
    simp only at hE
    injection hE with h4
    rw [← h4]
    exact ⟨hc0, ht0⟩

theorem claim3_witness :
    (RunCommandTool.Execute hostA ⟨"echo", ["hi"], "", [], 0⟩).2
        = [commandSpec hostA ⟨"echo", ["hi"], "", [], 0⟩ none] ∧
    (RunCommandTool.Execute hostA ⟨"echo", ["hi"], "", [], 0⟩).1.isOk = true ∧
    (RunScriptTool.Execute hostA ⟨"echo a", "bash", "", [], 0⟩).2
        = [scriptSpec hostA ⟨"echo a", "bash", "", [], 0⟩ none] ∧
    (RunScriptTool.Execute hostA ⟨"echo a", "bash", "", [], 0⟩).1.isOk = true := by
  have h2 := (claim3_timeout_default_and_sentinel hostA ⟨"echo", ["hi"], "", [], 0⟩
    ⟨"echo a", "bash", "", [], 0⟩).2.2.1 outA 7 none (fun _ => rfl) rfl rfl
    (by decide) (by decide) rfl
  have h3 := (claim3_timeout_default_and_sentinel hostA ⟨"echo", ["hi"], "", [], 0⟩
    ⟨"echo a", "bash", "", [], 0⟩).2.2.2 outA 7 none (fun _ => rfl) rfl rfl
    (by decide) (by decide) rfl
  exact ⟨h2.1, h2.2.1, h3.1, h3.2.1⟩

/-- C5: both tools build the child environment identically: no overrides
leaves the `exec.Cmd` environment unset so the child inherits the caller's
environment unmodified; with overrides the child environment is the caller's
full environment with the overrides appended, so (with unique override keys)
the child observes the override value on a collision and the caller's value
for every untouched key. -/
theorem claim5_child_environment (h : Host) (inpC : RunCommandInput)
    (inpS : RunScriptInput) :
    (∀ rc trc, RunCommandTool.Execute h inpC = (rc, trc) →
      ∀ s ∈ trc, s.env = childEnvOf h inpC.envOverrides) ∧
    (∀ rs trs, RunScriptTool.Execute h inpS = (rs, trs) →
      ∀ s ∈ trs, s.env = childEnvOf h inpS.envOverrides) ∧
    (∀ ov : List (String × String),
      (ov = [] → childEnvOf h ov = none) ∧
      (ov ≠ [] → childEnvOf h ov = some (h.environ ++ ov)) ∧
      (∀ s : SpawnSpec, s.env = childEnvOf h ov →
        (ov = [] → effectiveChildEnv h s = h.environ) ∧
        ((ov.map Prod.fst).Nodup → ∀ k v, (k, v) ∈ ov →
          observedValue (effectiveChildEnv h s) k = some v) ∧
        (∀ k, (∀ v, (k, v) ∉ ov) →
          observedValue (effectiveChildEnv h s) k = observedValue h.environ k))) := by
  refine ⟨?_, ?_, ?_⟩
  · intro rc trc hE s hs
    rcases runCommand_trace h inpC with ⟨htr, _⟩ | ⟨dir, hcwd, heq⟩
    · rw [hE] at htr
      simp only at htr
      subst htr
      cases hs
    · rw [heq] at hE
      rw [Prod.mk.injEq] at hE
      rw [← hE.2] at hs
      rcases List.mem_singleton.mp hs with rfl
      rfl
  · intro rs trs hE s hs
    rcases runScript_trace h inpS with ⟨htr, _⟩ | ⟨dir, hcwd, hdl, htr, _, _⟩
    · rw [hE] at htr
      simp only at htr
      subst htr
      cases hs
    · rw [hE] at htr
      simp only at htr
      rw [htr] at hs
      rcases List.mem_singleton.mp hs with rfl
      rfl
  · intro ov
    refine ⟨?_, ?_, ?_⟩
    · intro hov
      subst hov
      rfl
    · intro hov
      simp [childEnvOf, hov]
    · intro s hsenv
      by_cases hov : ov = []
      · subst hov
        refine ⟨fun _ => ?_, fun _ k v hm => absurd hm (List.not_mem_nil _), fun k _ => ?_⟩
        · simp only [childEnvOf, List.isEmpty_nil, if_true] at hsenv
          simp [effectiveChildEnv, hsenv]
        · simp only [childEnvOf, List.isEmpty_nil, if_true] at hsenv
          simp [effectiveChildEnv, hsenv]
      · have henv : effectiveChildEnv h s = h.environ ++ ov := by
          simp only [childEnvOf, hov] at hsenv
          rw [if_neg (by simpa using hov)] at hsenv
          simp [effectiveChildEnv, hsenv]
        refine ⟨fun he => absurd he hov, ?_, ?_⟩
        · intro hnd k v hm
          rw [henv]
          exact observed_append_mem hnd hm
        · intro k hnm
          rw [henv]
          exact observed_append_not_mem hnm

theorem claim5_witness :
    observedValue (effectiveChildEnv hostA ⟨"echo", [], none,
        childEnvOf hostA [("X", "1"), ("NEW", "2")], 30000⟩) "X" = some "1" ∧
    observedValue (effectiveChildEnv hostA ⟨"echo", [], none,
        childEnvOf hostA [("X", "1"), ("NEW", "2")], 30000⟩) "PATH" = some "/bin" := by
  have h := (claim5_child_environment hostA ⟨"echo", [], "", [], 0⟩
    ⟨"echo a", "", "", [], 0⟩).2.2 [("X", "1"), ("NEW", "2")]
  have h2 := h.2.2 ⟨"echo", [], none, childEnvOf hostA [("X", "1"), ("NEW", "2")], 30000⟩ rfl
  refine ⟨h2.2.1 (by decide) "X" "1" (by decide), ?_⟩
  have h3 := h2.2.2 "PATH" (by intro v hv; simp at hv)
  rw [h3]
  decide

/-- C6: `capOutput` returns exactly the first `maxOutputBytes` bytes with
`truncated = true` when the input exceeds the budget (so the returned length
equals the budget and no byte beyond it is present), and the whole input with
`truncated = false` otherwise; in every ok run_command result the two streams
are capped independently and the result's `truncated` flag is the logical OR
of the two per-stream flags. -/
theorem claim6_output_capping :
    (∀ data : List Char,
      (data.length > maxOutputBytes →
        capOutput data = (data.take maxOutputBytes, true) ∧
        (capOutput data).1.length = maxOutputBytes) ∧
      (data.length ≤ maxOutputBytes → capOutput data = (data, false))) ∧
    (∀ (h : Host) (inp : RunCommandInput) r tr,
      RunCommandTool.Execute h inp = (Except.ok r, tr) →
      ∀ s ∈ tr,
        r.stdout = (capOutput (h.run s).stdoutData).1 ∧
        r.stderr = (capOutput (h.run s).stderrData).1 ∧
        r.truncated
          = ((capOutput (h.run s).stdoutData).2 || (capOutput (h.run s).stderrData).2)) := by
  refine ⟨?_, ?_⟩
  · intro data
    refine ⟨fun hgt => ?_, fun hle => ?_⟩
    · refine ⟨by simp [capOutput, hgt], ?_⟩
      simp only [capOutput, hgt, if_pos]
      simp [List.length_take]
      omega
    · simp [capOutput]
      omega
  · intro h inp r tr hE s hs
    rcases runCommand_trace h inp with ⟨htr, e, he⟩ | ⟨dir, hcwd, heq⟩
    · rw [hE] at he
      simp at he
    · rw [heq] at hE
      rw [Prod.mk.injEq] at hE
      rw [← hE.2] at hs
      rcases List.mem_singleton.mp hs with rfl
      exact assembleOutput_fields hE.1

theorem claim6_witness :
    capOutput "ab".data = ("ab".data, false) :=
  (claim6_output_capping.1 "ab".data).2 (by decide)

/-- C7: for every run_script request, the script is rejected with a
policy violation naming the first offending (trimmed) line and its matched
rule and with no spawn request, exactly when some non-blank, non-comment line
matches a deny rule after trimming; blank and comment lines are never
checked. -/
theorem claim7_script_policy (h : Host) (inp : RunScriptInput)
    (hs : inp.script ≠ "") :
    (∀ p l, scriptDeniedLine inp.script = some (p, l) →
      RunScriptTool.Execute h inp
        = (Except.error (ExecError.scriptPolicyViolation p l), []) ∧
      isDenied l = (true, p) ∧
      ∃ raw ∈ splitLines inp.script.data, goTrimSpaceL raw = l.data) ∧
    (scriptDeniedLine inp.script = none ↔
      ∀ raw ∈ splitLines inp.script.data,
        goTrimSpaceL raw ≠ [] → isCommentLine (goTrimSpaceL raw) = false →
        (isDeniedAux defaultDenyPatterns (goTrimSpaceL raw)).1 = false) := by
  constructor
  · intro p l hdl
    refine ⟨by simp [RunScriptTool.Execute, hs, hdl], ?_, ?_⟩
    · obtain ⟨raw, _, hraw⟩ := findSome?_mem hdl
      exact (scriptCheckLine_some hraw).2
    · obtain ⟨raw, hmem, hraw⟩ := findSome?_mem hdl
      exact ⟨raw, hmem, (scriptCheckLine_some hraw).1⟩
  · unfold scriptDeniedLine
    rw [List.findSome?_eq_none_iff]
    constructor
    · intro hall raw hmem
      exact (scriptCheckLine_none_iff raw).mp (hall raw hmem)
    · intro hall raw hmem
      exact (scriptCheckLine_none_iff raw).mpr (hall raw hmem)

theorem claim7_witness :
    RunScriptTool.Execute hostA ⟨"echo a\n# reboot\nsystemctl stop nginx", "bash", "", [], 0⟩
      = (Except.error (ExecError.scriptPolicyViolation
          "\\bsystemctl\\s+(start|stop|disable|enable|mask)\\b" "systemctl stop nginx"), []) := by
  have h := (claim7_script_policy hostA
    ⟨"echo a\n# reboot\nsystemctl stop nginx", "bash", "", [], 0⟩ (by decide)).1
    "\\bsystemctl\\s+(start|stop|disable|enable|mask)\\b" "systemctl stop nginx" (by decide)
  exact h.1

/-- C4 counterexample: the sensitive value `"ab*cd"` has length above four,
yet its masked rendering equals the original value (the interior is already
the mask character), refuting "the masked value is never equal to the
original". -/
theorem claim4_counterexample :
    isSensitiveEnvKey "API_KEY" = true ∧
    ("ab*cd" : String).length > 4 ∧
    redactValue "ab*cd" = "ab*cd" ∧
    (GetEnvTool.Execute [("API_KEY", "ab*cd")] ⟨["API_KEY"], false⟩).vars
      = [⟨"API_KEY", "ab*cd", true⟩] := by
  decide

/-- C4 (amended): reading a present sensitive key with
`include_sensitive = false` returns exactly the masked value with
`redacted = true`, where for length over four the mask preserves the first
two and last two characters with mask characters in between and differs from
the original whenever some interior character is not the mask character, and
for length at most four is the fixed `"****"`; reading the same key with
`include_sensitive = true` returns the exact original with
`redacted = false`. -/
theorem claim4_redaction_roundtrip (environ : List (String × String))
    (k v : String) (hsens : isSensitiveEnvKey k = true)
    (hlk : List.lookup k environ = some v) :
    (GetEnvTool.Execute environ ⟨[k], false⟩).vars = [⟨k, redactValue v, true⟩] ∧
    (GetEnvTool.Execute environ ⟨[k], true⟩).vars = [⟨k, v, false⟩] ∧
    (v.length ≤ 4 → redactValue v = "****") ∧
    (v.length > 4 →
      (redactValue v).data.take 2 = v.data.take 2 ∧
      (redactValue v).data.drop (v.length - 2) = v.data.drop (v.length - 2) ∧
      ((redactValue v).data.drop 2).take (v.length - 4)
        = List.replicate (v.length - 4) '*' ∧
      ((∃ c ∈ (v.data.drop 2).take (v.length - 4), c ≠ '*') → redactValue v ≠ v)) := by
  refine ⟨?_, ?_, fun hle => by simp [redactValue, hle], fun hgt =>
    ⟨redact_take2 hgt, redact_drop hgt, redact_mid hgt, redact_ne_of_mid hgt⟩⟩
  · simp [GetEnvTool.Execute, hlk, mkEnvEntry, hsens]
  · simp [GetEnvTool.Execute, hlk, mkEnvEntry, hsens]

theorem claim4_witness :
    (GetEnvTool.Execute [("API_KEY", "abcdef1234")] ⟨["API_KEY"], false⟩).vars
      = [⟨"API_KEY", "ab******34", true⟩] ∧
    (GetEnvTool.Execute [("API_KEY", "abcdef1234")] ⟨["API_KEY"], true⟩).vars
      = [⟨"API_KEY", "abcdef1234", false⟩] := by
  have h := claim4_redaction_roundtrip [("API_KEY", "abcdef1234")] "API_KEY" "abcdef1234"
    (by decide) (by decide)
  refine ⟨?_, h.2.1⟩
  rw [h.1]
  decide

/-- C10: the masked rendering leaks the original length — for length over
four the redacted string has exactly the original's length (two preserved
prefix characters, `length - 4` mask characters, two preserved suffix
characters), while every value of length at most four maps to the same fixed
four-character mask regardless of content. -/
theorem claim10_redaction_length (v : String) :
    (v.length ≤ 4 → redactValue v = "****") ∧
    (v.length > 4 →
      (redactValue v).length = v.length ∧
      (redactValue v).data
        = v.data.take 2 ++ List.replicate (v.length - 4) '*'
            ++ v.data.drop (v.length - 2)) :=
  ⟨fun hle => by simp [redactValue, hle],
   fun hgt => ⟨redact_gt_length hgt, redact_gt_data hgt⟩⟩

theorem claim10_witness :
    (redactValue "abcdef1234").length = ("abcdef1234" : String).length ∧
    redactValue "abc" = "****" ∧
    redactValue "zzzz" = "****" :=
  ⟨((claim10_redaction_length "abcdef1234").2 (by decide)).1,
   (claim10_redaction_length "abc").1 (by decide),
   (claim10_redaction_length "zzzz").1 (by decide)⟩

/-- C9: a get_env request listing specific keys returns exactly the listed
keys that are present in the environment, in request order, with absent keys
silently omitted (the call is total, no error); a request with no keys
returns every currently set variable. -/
theorem claim9_getenv_selection (environ : List (String × String))
    (keys : List String) (incl : Bool) :
    (keys ≠ [] →
      (GetEnvTool.Execute environ ⟨keys, incl⟩).vars
        = keys.filterMap (fun k =>
            (List.lookup k environ).map fun v => mkEnvEntry k v incl) ∧
      (GetEnvTool.Execute environ ⟨keys, incl⟩).vars.map (fun e => e.key)
        = keys.filter fun k => (List.lookup k environ).isSome) ∧
    (keys = [] →
      (GetEnvTool.Execute environ ⟨keys, incl⟩).vars
        = environ.map (fun p => mkEnvEntry p.1 p.2 incl) ∧
      (GetEnvTool.Execute environ ⟨keys, incl⟩).vars.map (fun e => e.key)
        = environ.map Prod.fst) := by
  constructor
  · intro hne
    have hek : keys.isEmpty = false := by
      cases keys with
      | nil => exact absurd rfl hne
      | cons a t => rfl
    have h1 : (GetEnvTool.Execute environ ⟨keys, incl⟩).vars
        = keys.filterMap fun k =>
            (List.lookup k environ).map fun v => mkEnvEntry k v incl := by
      simp [GetEnvTool.Execute, hek]
    exact ⟨h1, by rw [h1]; exact getEnv_keys_map environ keys incl⟩
  · intro he
    subst he
    refine ⟨by simp [GetEnvTool.Execute], ?_⟩
    simp [GetEnvTool.Execute, List.map_map, Function.comp, mkEnvEntry_key]

theorem claim9_witness :
    (GetEnvTool.Execute [("HOME", "/root"), ("X", "0")]
        ⟨["X", "NOPE", "HOME"], false⟩).vars.map (fun e => e.key) = ["X", "HOME"] := by
  have h := (claim9_getenv_selection [("HOME", "/root"), ("X", "0")]
    ["X", "NOPE", "HOME"] false).1 (by decide)
  rw [h.2]
  decide

/-- C8: shell resolution is a total function of the request and the host
oracles; a requested POSIX shell that resolves gets flag `-c` and a resolved
PowerShell variant gets `-Command` (pwsh preferred over powershell); when the
requested name does not resolve through the switch, a non-Windows host falls
back to bash, then zsh, then sh, then unconditionally `/bin/sh`, and a
Windows host to pwsh, then powershell, then `cmd` with `/C`. -/
theorem claim8_shell_resolution (goos : String) (look : String → Option String)
    (req : String) :
    (∀ p, look "bash" = some p → resolveShell goos look "bash" = (p, "-c")) ∧
    (∀ p, look "zsh" = some p → resolveShell goos look "zsh" = (p, "-c")) ∧
    (∀ p, look "sh" = some p → resolveShell goos look "sh" = (p, "-c")) ∧
    (∀ p, look "fish" = some p → resolveShell goos look "fish" = (p, "-c")) ∧
    (∀ p, look "pwsh" = some p →
      resolveShell goos look "pwsh" = (p, "-Command") ∧
      resolveShell goos look "powershell" = (p, "-Command")) ∧
    (look "pwsh" = none → ∀ p, look "powershell" = some p →
      resolveShell goos look "pwsh" = (p, "-Command") ∧
      resolveShell goos look "powershell" = (p, "-Command")) ∧
    (resolveShellCase look (goToLower req) = none →
      (goos ≠ "windows" →
        (∀ p, look "bash" = some p → resolveShell goos look req = (p, "-c")) ∧
        (look "bash" = none → ∀ p, look "zsh" = some p →
          resolveShell goos look req = (p, "-c")) ∧
        (look "bash" = none → look "zsh" = none → ∀ p, look "sh" = some p →
          resolveShell goos look req = (p, "-c")) ∧
        (look "bash" = none → look "zsh" = none → look "sh" = none →
          resolveShell goos look req = ("/bin/sh", "-c"))) ∧
      (goos = "windows" →
        (∀ p, look "pwsh" = some p → resolveShell goos look req = (p, "-Command")) ∧
        (look "pwsh" = none → ∀ p, look "powershell" = some p →
          resolveShell goos look req = (p, "-Command")) ∧
        (look "pwsh" = none → look "powershell" = none →
          resolveShell goos look req = ("cmd", "/C")))) := by
  have hb : goToLower "bash" = "bash" := by decide
  have hz : goToLower "zsh" = "zsh" := by decide
  have hsh : goToLower "sh" = "sh" := by decide
  have hf : goToLower "fish" = "fish" := by decide
  have hpw : goToLower "pwsh" = "pwsh" := by decide
  have hps : goToLower "powershell" = "powershell" := by decide
  refine ⟨?_, ?_, ?_, ?_, ?_, ?_, ?_⟩
  · intro p hp
    simp [resolveShell, resolveShellCase, hb, hp]
  · intro p hp
    simp [resolveShell, resolveShellCase, hz, hp]
  · intro p hp
    simp [resolveShell, resolveShellCase, hsh, hp]
  · intro p hp
    simp [resolveShell, resolveShellCase, hf, hp]
  · intro p hp
    constructor <;> simp [resolveShell, resolveShellCase, hpw, hps, hp]
  · intro hn p hp
    constructor <;> simp [resolveShell, resolveShellCase, hpw, hps, hn, hp]
  · intro hcase
    have hdef : resolveShell goos look req = resolveShellDefault goos look := by
      simp [resolveShell, hcase]
    constructor
    · intro hw
      refine ⟨?_, ?_, ?_, ?_⟩
      · intro p hp
        rw [hdef]
        simp [resolveShellDefault, hw, hp]
      · intro h1 p hp
        rw [hdef]
        simp [resolveShellDefault, hw, h1, hp]
      · intro h1 h2 p hp
        rw [hdef]
        simp [resolveShellDefault, hw, h1, h2, hp]
      · intro h1 h2 h3
        rw [hdef]
        simp [resolveShellDefault, hw, h1, h2, h3]
    · intro hw
      refine ⟨?_, ?_, ?_⟩
      · intro p hp
        rw [hdef]
        simp [resolveShellDefault, hw, hp]
      · intro h1 p hp
        rw [hdef]
        simp [resolveShellDefault, hw, h1, hp]
      · intro h1 h2
        rw [hdef]
        simp [resolveShellDefault, hw, h1, h2]

theorem claim8_witness :
    resolveShell "linux" (fun n => if n = "zsh" then some "/bin/zsh" else none) "" = ("/bin/zsh", "-c") ∧
    resolveShell "linux" (fun _ => none) "frobnicate" = ("/bin/sh", "-c") ∧
    resolveShell "windows" (fun _ => none) "" = ("cmd", "/C") ∧
    resolveShell "linux" (fun n => if n = "pwsh" then some "/opt/pwsh" else none) "PowerShell"
      = ("/opt/pwsh", "-Command") := by
  refine ⟨?_, ?_, ?_, ?_⟩
  · have h := ((claim8_shell_resolution "linux"
      (fun n => if n = "zsh" then some "/bin/zsh" else none) "").2.2.2.2.2.2
      (by decide)).1 (by decide)
    exact (h.2.1 (by decide) "/bin/zsh" (by decide))
  · have h := ((claim8_shell_resolution "linux" (fun _ => none) "frobnicate").2.2.2.2.2.2
      (by decide)).1 (by decide)
    exact h.2.2.2 rfl rfl rfl
  · have h := ((claim8_shell_resolution "windows" (fun _ => none) "").2.2.2.2.2.2
      (by decide)).2 rfl
    exact h.2.2 rfl rfl
  · have h := (claim8_shell_resolution "linux"
      (fun n => if n = "pwsh" then some "/opt/pwsh" else none) "PowerShell").2.2.2.2.1
      "/opt/pwsh" (by decide)
    have heq : goToLower "PowerShell" = "powershell" := by decide
    have h2 : resolveShell "linux" (fun n => if n = "pwsh" then some "/opt/pwsh" else none)
        "PowerShell" = resolveShell "linux"
          (fun n => if n = "pwsh" then some "/opt/pwsh" else none) "powershell" := by
      simp [resolveShell, heq, goToLower]
    rw [h2]
    exact h.2

/-! Family lemmas for the deny rules. -/

end GoTools
